import Mathlib

/-!
Shallow embedding of `Miner::send_request` (src/send_request.rs) from the
ore-cli repository.

Network effects are modelled by an environment `Env` of response oracles
indexed by call count: the i-th call to the transport's submit operation
receives `env.send_transaction i`, the j-th signature-status query receives
`env.get_signature_statuses j`, and the single pre-loop balance and blockhash
fetches are plain optional values.  The embedded function returns, besides the
outcome, the exact number of submit calls and status queries made, the number
of blockhash fetches, the number of dynamic-fee-oracle invocations, and the
list of transactions handed to the transport in order — so the spec's claims
about retry budgets and call counts are directly statable.

Rust panics (the `panic!` on low balance and the `.unwrap()` on the blockhash
fetch) are modelled as a distinguished `Outcome.panicked` constructor, kept
separate from returned `Err` results.
-/

/-- Source constant `MIN_SOL_BALANCE: f64 = 0.005`, expressed in lamports as
the code compares it: `sol_to_lamports(0.005)` evaluates to exactly
5_000_000 lamports (the f64 rounding error is far below half an ulp). -/
def MIN_SOL_BALANCE_LAMPORTS : Nat := 5000000

/-- Source constant `RPC_RETRIES: usize = 0` (transport-internal retries). -/
def RPC_RETRIES : Nat := 0

/-- Source constant `GATEWAY_RETRIES: usize = 150`. -/
def GATEWAY_RETRIES : Nat := 150

/-- Source constant `CONFIRM_RETRIES: usize = 1`. -/
def CONFIRM_RETRIES : Nat := 1

/-- Source constant `CONFIRM_DELAY: u64 = 0` (milliseconds; time is not
otherwise modelled). -/
def CONFIRM_DELAY : Nat := 0

/-- Source constant `GATEWAY_DELAY: u64 = 300` (milliseconds; time is not
otherwise modelled). -/
def GATEWAY_DELAY : Nat := 300

/-- Source enum `ComputeBudget { Dynamic, Fixed(u32) }`. -/
inductive ComputeBudget where
  | dynamic
  | fixed (cus : Nat)
  deriving DecidableEq

/-- Instructions: the two synthetic compute-budget instructions the code
builds, plus opaque caller-supplied instructions. -/
inductive Instruction where
  | setComputeUnitLimit (units : Nat)
  | setComputeUnitPrice (price : Nat)
  | other (tag : Nat) (data : List Nat)
  deriving DecidableEq

/-- Source enum `TransactionConfirmationStatus`. -/
inductive TransactionConfirmationStatus where
  | processed
  | confirmed
  | finalized
  deriving DecidableEq

/-- One entry of a `get_signature_statuses` response: an optional on-chain
error payload and an optional confirmation level. -/
structure TxStatus where
  err : Option String
  confirmation_status : Option TransactionConfirmationStatus
  deriving DecidableEq

/-- A signed transaction: the message (ordered instructions + fee payer),
the recent blockhash it was signed against, and the signer set.  Mirrors
lines 100-113 of the source. -/
structure Transaction where
  instructions : List Instruction
  payer : Nat
  blockhash : Nat
  signatures : List Nat
  deriving DecidableEq

/-- The fields of `Miner` that `send_request` reads (public keys stand in
for keypairs; only identity comparisons and signing sets matter). -/
structure Miner where
  signer : Nat
  fee_payer : Nat
  dynamic_fee_url : Option String
  dynamic_fee_strategy : Option String
  priority_fee : Option Nat

/-- The network environment: response oracles for each RPC call the function
makes.  `send_transaction i` is the response to the i-th submit call;
`get_signature_statuses j` the response to the j-th status query. -/
structure Env where
  get_balance : Option Nat
  dynamic_fee : Nat
  get_latest_blockhash : Option Nat
  send_transaction : Nat → Except String Nat
  get_signature_statuses : Nat → Except String (List (Option TxStatus))

/-- The error kinds `send_request` builds: always `ClientErrorKind::Custom`. -/
inductive ClientErrorKind where
  | custom (msg : String)
  deriving DecidableEq

/-- The two places the source aborts the process instead of returning. -/
inductive PanicReason where
  | insufficientBalance
  | blockhashUnwrap
  deriving DecidableEq

/-- Result of one execution: a returned `Ok(signature)`, a returned `Err`,
or a process abort (`panic!` / `.unwrap()`). -/
inductive Outcome where
  | ok (sig : Nat)
  | err (kind : ClientErrorKind)
  | panicked (reason : PanicReason)
  deriving DecidableEq

/-- True exactly on returned `Err` results (not on panics or `Ok`). -/
def Outcome.isErrResult : Outcome → Bool
  | .err _ => true
  | _ => false

/-- Mutable state of the outer submit loop: call counters and the list of
transactions handed to the transport, in order. -/
structure LoopState where
  submits : Nat
  statusQueries : Nat
  submittedTxs : List Transaction
  deriving DecidableEq

/-- Full observable result of `send_request`: outcome plus exact call
counts and the submitted-transaction trace. -/
structure SendResult where
  outcome : Outcome
  submits : Nat
  statusQueries : Nat
  feeOracleCalls : Nat
  blockhashFetches : Nat
  submittedTxs : List Transaction
  deriving DecidableEq

/-- Compute-unit-limit instruction, lines 70-78: `Dynamic` pushes the fixed
ceiling 1_400_000, `Fixed(cus)` pushes `cus`. -/
def computeLimitIx : ComputeBudget → Instruction
  | .dynamic => .setComputeUnitLimit 1400000
  | .fixed cus => .setComputeUnitLimit cus

/-- Priority-fee resolution, lines 80-87: the dynamic-fee oracle's value when
a dynamic-fee URL is configured, else the configured static fee
(`unwrap_or(0)`). -/
def resolve_priority_fee (m : Miner) (env : Env) : Nat :=
  match m.dynamic_fee_url with
  | some _ => env.dynamic_fee
  | none => m.priority_fee.getD 0

/-- Number of dynamic-fee-oracle invocations made by the fee resolution:
one when a dynamic-fee URL is configured, zero otherwise. -/
def feeOracleCallCount (m : Miner) : Nat :=
  match m.dynamic_fee_url with
  | some _ => 1
  | none => 0

/-- Assembly of `final_ixs`, lines 69-90: start from an empty vector, push
the compute-limit instruction, push the compute-price instruction, then
extend with the caller's slice. -/
def build_final_ixs (m : Miner) (env : Env) (compute_budget : ComputeBudget)
    (ixs : List Instruction) : List Instruction :=
  let l0 : List Instruction := []
  let l1 := l0 ++ [computeLimitIx compute_budget]
  let l2 := l1 ++ [Instruction.setComputeUnitPrice (resolve_priority_fee m env)]
  l2 ++ ixs

/-- Transaction construction and signing, lines 100-113: payer is the fee
payer; one signature when signer and fee payer coincide, two otherwise. -/
def assemble_tx (m : Miner) (final_ixs : List Instruction) (hash : Nat) :
    Transaction :=
  { instructions := final_ixs
    payer := m.fee_payer
    blockhash := hash
    signatures := if m.signer = m.fee_payer then [m.signer] else [m.signer, m.fee_payer] }

/-- Outcome of scanning one status-query response inside the confirmation
loop. -/
inductive PollStep where
  | terminalErr (e : String)
  | terminalOk (sig : Nat)
  | fallthrough
  deriving DecidableEq

/-- The `for status in signature_statuses.value` scan, lines 142-170: the
first present status with an error payload fails terminally; the first
present status at `Confirmed`/`Finalized` succeeds with the submitted
signature; `Processed`, absent statuses and absent confirmation levels are
skipped. -/
def scanStatuses (sig : Nat) : List (Option TxStatus) → PollStep
  | [] => .fallthrough
  | none :: rest => scanStatuses sig rest
  | some st :: rest =>
    match st.err with
    | some e => .terminalErr e
    | none =>
      match st.confirmation_status with
      | some .processed => scanStatuses sig rest
      | some .confirmed => .terminalOk sig
      | some .finalized => .terminalOk sig
      | none => scanStatuses sig rest

/-- The `for _ in 0..CONFIRM_RETRIES` confirmation loop, lines 138-182:
each iteration makes one status query (`q` is the running query index); a
query error is reported and the loop continues; a terminal scan outcome
returns immediately; exhausting the budget falls through to the outer
retry path.  Returns the step and the updated query index. -/
def confirmLoop (env : Env) (sig : Nat) : Nat → Nat → PollStep × Nat
  | q, 0 => (.fallthrough, q)
  | q, n + 1 =>
    match env.get_signature_statuses q with
    | .ok statuses =>
      match scanStatuses sig statuses with
      | .terminalErr e => (.terminalErr e, q + 1)
      | .terminalOk s => (.terminalOk s, q + 1)
      | .fallthrough => confirmLoop env sig (q + 1) n
    | .error _ => confirmLoop env sig (q + 1) n

/-- The outer submit loop, lines 117-205.  `remaining` is the number of
iterations the attempt budget still allows (`GATEWAY_RETRIES + 1 - attempts`):
each iteration submits once; on a submit error, or when the confirmation
loop falls through, the loop sleeps, increments `attempts` and retries;
when the budget is exhausted it returns the `"Max retries"` error.  On a
submit success with `skip_confirm` set, it returns the skip-confirmation
sentinel error without querying any status. -/
def sendLoop (env : Env) (tx : Transaction) (skip_confirm : Bool) :
    Nat → LoopState → Outcome × LoopState
  | 0, st => (.err (.custom "Max retries"), st)
  | remaining + 1, st =>
    let st1 : LoopState :=
      { submits := st.submits + 1
        statusQueries := st.statusQueries
        submittedTxs := st.submittedTxs ++ [tx] }
    match env.send_transaction st.submits with
    | .ok sig =>
      if skip_confirm then
        (.err (.custom "难度值小于20不提交!!!"), st1)
      else
        let cres := confirmLoop env sig st.statusQueries CONFIRM_RETRIES
        let st2 : LoopState := { st1 with statusQueries := cres.2 }
        match cres.1 with
        | .terminalErr e => (.err (.custom e), st2)
        | .terminalOk s => (.ok s, st2)
        | .fallthrough => sendLoop env tx skip_confirm remaining st2
    | .error _ => sendLoop env tx skip_confirm remaining st1

/-- Whether the balance guard of lines 57-66 fires: it fires only when the
balance query succeeds AND the returned balance is at or below the
threshold; a failed balance query skips the guard silently. -/
def balanceGuardTrips (env : Env) : Bool :=
  match env.get_balance with
  | some balance => decide (balance ≤ MIN_SOL_BALANCE_LAMPORTS)
  | none => false

/-- Everything after the balance guard, lines 68-205: fee and compute-budget
resolution, the single blockhash fetch (whose failure is an `.unwrap()`
panic), transaction assembly and signing, then the outer submit loop with
budget `GATEWAY_RETRIES + 1`. -/
def send_request_rest (m : Miner) (env : Env) (ixs : List Instruction)
    (compute_budget : ComputeBudget) (skip_confirm : Bool) : SendResult :=
  let final_ixs := build_final_ixs m env compute_budget ixs
  match env.get_latest_blockhash with
  | none =>
    { outcome := .panicked .blockhashUnwrap
      submits := 0
      statusQueries := 0
      feeOracleCalls := feeOracleCallCount m
      blockhashFetches := 1
      submittedTxs := [] }
  | some hash =>
    let tx := assemble_tx m final_ixs hash
    let res := sendLoop env tx skip_confirm (GATEWAY_RETRIES + 1) ⟨0, 0, []⟩
    { outcome := res.1
      submits := res.2.submits
      statusQueries := res.2.statusQueries
      feeOracleCalls := feeOracleCallCount m
      blockhashFetches := 1
      submittedTxs := res.2.submittedTxs }

/-- `Miner::send_request`, lines 41-206.  The balance guard of lines 57-66
runs first: a successful balance query at or below the threshold aborts the
process (`panic!`) before any fee resolution, fetch or submission; a failed
balance query skips the guard.  `best_diff` is accepted and never read,
exactly as in the source. -/
def send_request (m : Miner) (env : Env) (ixs : List Instruction)
    (compute_budget : ComputeBudget) (skip_confirm : Bool) (best_diff : Nat) :
    SendResult :=
  match env.get_balance with
  | some balance =>
    if balance ≤ MIN_SOL_BALANCE_LAMPORTS then
      { outcome := .panicked .insufficientBalance
        submits := 0
        statusQueries := 0
        feeOracleCalls := 0
        blockhashFetches := 0
        submittedTxs := [] }
    else
      send_request_rest m env ixs compute_budget skip_confirm
  | none => send_request_rest m env ixs compute_budget skip_confirm

/-! ## Helper lemmas about the embedded loops -/

/-- When the balance guard does not fire, `send_request` is exactly the
post-guard body. -/
theorem send_request_guard_pass (m : Miner) (env : Env) (ixs : List Instruction)
    (cb : ComputeBudget) (sc : Bool) (d : Nat)
    (hg : balanceGuardTrips env = false) :
    send_request m env ixs cb sc d = send_request_rest m env ixs cb sc := by
  cases h : env.get_balance with
  | none => simp [send_request, h]
  | some b =>
    have hb : ¬ b ≤ MIN_SOL_BALANCE_LAMPORTS := by
      have hg2 := hg
      simp [balanceGuardTrips, h] at hg2
      omega
    simp [send_request, h, hb]

/-- If every submit call fails, the loop runs through its whole budget,
submitting once per iteration, querying no statuses, and ends with the
`"Max retries"` error. -/
theorem sendLoop_allFail (env : Env) (tx : Transaction) (sc : Bool)
    (hfail : ∀ i, ∃ e, env.send_transaction i = .error e) :
    ∀ remaining st, sendLoop env tx sc remaining st =
      (.err (.custom "Max retries"),
        ⟨st.submits + remaining, st.statusQueries,
          st.submittedTxs ++ List.replicate remaining tx⟩) := by
  intro remaining
  induction remaining with
  | zero => intro st; simp [sendLoop]
  | succ r ih =>
    intro st
    obtain ⟨e, he⟩ := hfail st.submits
    simp only [sendLoop, he]
    rw [ih ⟨st.submits + 1, st.statusQueries, st.submittedTxs ++ [tx]⟩]
    simp [List.replicate_succ, List.append_assoc]
    omega

/-- With `skip_confirm` set, the loop never produces an `Ok` outcome. -/
theorem sendLoop_skip_no_ok (env : Env) (tx : Transaction) :
    ∀ remaining st s, (sendLoop env tx true remaining st).1 ≠ .ok s := by
  intro remaining
  induction remaining with
  | zero => intro st s; simp [sendLoop]
  | succ r ih =>
    intro st s
    cases h : env.send_transaction st.submits with
    | ok sig => simp [sendLoop, h]
    | error e =>
      simp only [sendLoop, h]
      exact ih _ s

/-- The loop only ever appends copies of the one assembled transaction to
the submitted-transaction trace. -/
theorem sendLoop_submitted_shape (env : Env) (tx : Transaction) (sc : Bool) :
    ∀ remaining st, ∃ k, (sendLoop env tx sc remaining st).2.submittedTxs =
      st.submittedTxs ++ List.replicate k tx := by
  intro remaining
  induction remaining with
  | zero => intro st; exact ⟨0, by simp [sendLoop]⟩
  | succ r ih =>
    intro st
    cases h : env.send_transaction st.submits with
    | error e =>
      obtain ⟨k, hk⟩ := ih ⟨st.submits + 1, st.statusQueries, st.submittedTxs ++ [tx]⟩
      refine ⟨k + 1, ?_⟩
      simp only [sendLoop, h]
      rw [hk]
      simp [List.replicate_succ, List.append_assoc]
    | ok sig =>
      cases sc with
      | true =>
        refine ⟨1, ?_⟩
        simp [sendLoop, h]
      | false =>
        cases hc : (confirmLoop env sig st.statusQueries CONFIRM_RETRIES).1 with
        | terminalErr e => exact ⟨1, by simp [sendLoop, h, hc]⟩
        | terminalOk s => exact ⟨1, by simp [sendLoop, h, hc]⟩
        | fallthrough =>
          obtain ⟨k, hk⟩ := ih ⟨st.submits + 1,
            (confirmLoop env sig st.statusQueries CONFIRM_RETRIES).2,
            st.submittedTxs ++ [tx]⟩
          refine ⟨k + 1, ?_⟩
          simp only [sendLoop, h, hc]
          rw [if_neg Bool.false_ne_true, hk]
          simp [List.replicate_succ, List.append_assoc]

/-- A status list in which every present entry has no error payload and is
not at `confirmed`/`finalized` (in particular, `processed` entries) makes
the scan fall through: such a response never terminates the loop. -/
theorem scanStatuses_fallthrough_of_nonterminal (sig : Nat) :
    ∀ ss : List (Option TxStatus),
      (∀ t ∈ ss, ∀ u, t = some u → u.err = none ∧
        u.confirmation_status ≠ some TransactionConfirmationStatus.confirmed ∧
        u.confirmation_status ≠ some TransactionConfirmationStatus.finalized) →
      scanStatuses sig ss = PollStep.fallthrough := by
  intro ss
  induction ss with
  | nil => intro _; rfl
  | cons hd tl ih =>
    intro h
    have htl : ∀ t ∈ tl, ∀ u, t = some u → u.err = none ∧
        u.confirmation_status ≠ some TransactionConfirmationStatus.confirmed ∧
        u.confirmation_status ≠ some TransactionConfirmationStatus.finalized :=
      fun t ht u hu => h t (List.mem_cons_of_mem _ ht) u hu
    cases hd with
    | none => simpa [scanStatuses] using ih htl
    | some u =>
      obtain ⟨herr, hc, hf⟩ := h (some u) (List.mem_cons_self _ _) u rfl
      cases hcs : u.confirmation_status with
      | none => simpa [scanStatuses, herr, hcs] using ih htl
      | some c =>
        cases c with
        | processed => simpa [scanStatuses, herr, hcs] using ih htl
        | confirmed => exact absurd hcs hc
        | finalized => exact absurd hcs hf

/-- If the scan succeeds, the returned signature is the submitted one and
some present status in the response has no error payload and confirmation
level `confirmed` or `finalized`. -/
theorem scanStatuses_terminalOk_inv (sig s : Nat) :
    ∀ ss : List (Option TxStatus), scanStatuses sig ss = PollStep.terminalOk s →
      s = sig ∧ ∃ t ∈ ss, ∃ u, t = some u ∧ u.err = none ∧
        (u.confirmation_status = some TransactionConfirmationStatus.confirmed ∨
         u.confirmation_status = some TransactionConfirmationStatus.finalized) := by
  intro ss
  induction ss with
  | nil => intro h; simp [scanStatuses] at h
  | cons hd tl ih =>
    intro h
    cases hd with
    | none =>
      simp only [scanStatuses] at h
      obtain ⟨hs, t, ht, u, hu, hrest⟩ := ih h
      exact ⟨hs, t, List.mem_cons_of_mem _ ht, u, hu, hrest⟩
    | some u =>
      cases herr : u.err with
      | some e => simp [scanStatuses, herr] at h
      | none =>
        cases hcs : u.confirmation_status with
        | none =>
          simp only [scanStatuses, herr, hcs] at h
          obtain ⟨hs, t, ht, u2, hu2, hrest⟩ := ih h
          exact ⟨hs, t, List.mem_cons_of_mem _ ht, u2, hu2, hrest⟩
        | some c =>
          cases c with
          | processed =>
            simp only [scanStatuses, herr, hcs] at h
            obtain ⟨hs, t, ht, u2, hu2, hrest⟩ := ih h
            exact ⟨hs, t, List.mem_cons_of_mem _ ht, u2, hu2, hrest⟩
          | confirmed =>
            simp only [scanStatuses, herr, hcs, PollStep.terminalOk.injEq] at h
            exact ⟨h.symm, some u, List.mem_cons_self _ _, u, rfl, herr, Or.inl hcs⟩
          | finalized =>
            simp only [scanStatuses, herr, hcs, PollStep.terminalOk.injEq] at h
            exact ⟨h.symm, some u, List.mem_cons_self _ _, u, rfl, herr, Or.inr hcs⟩

/-- If the confirmation loop reports success, some status query it made
returned a response whose scan succeeds. -/
theorem confirmLoop_terminalOk_inv (env : Env) (sig : Nat) :
    ∀ n q s, (confirmLoop env sig q n).1 = PollStep.terminalOk s →
      ∃ j ss, env.get_signature_statuses j = .ok ss ∧
        scanStatuses sig ss = PollStep.terminalOk s := by
  intro n
  induction n with
  | zero => intro q s h; simp [confirmLoop] at h
  | succ k ih =>
    intro q s h
    cases hq : env.get_signature_statuses q with
    | error e =>
      simp only [confirmLoop, hq] at h
      exact ih _ s h
    | ok ss =>
      cases hsc : scanStatuses sig ss with
      | terminalErr e => simp [confirmLoop, hq, hsc] at h
      | terminalOk s2 =>
        simp only [confirmLoop, hq, hsc] at h
        cases h
        exact ⟨q, ss, hq, hsc⟩
      | fallthrough =>
        simp only [confirmLoop, hq, hsc] at h
        exact ih _ s h

/-- If the outer loop ends in `Ok s`, then `s` was the signature returned by
some submit call, and some status query returned a response whose scan
succeeds on `s`. -/
theorem sendLoop_ok_inv (env : Env) (tx : Transaction) (sc : Bool) :
    ∀ remaining st s, (sendLoop env tx sc remaining st).1 = Outcome.ok s →
      ∃ i, env.send_transaction i = .ok s := by
  intro remaining
  induction remaining with
  | zero => intro st s h; simp [sendLoop] at h
  | succ r ih =>
    intro st s h
    cases hsub : env.send_transaction st.submits with
    | error e =>
      simp only [sendLoop, hsub] at h
      exact ih _ s h
    | ok sig =>
      cases sc with
      | true => simp [sendLoop, hsub] at h
      | false =>
        cases hc : (confirmLoop env sig st.statusQueries CONFIRM_RETRIES).1 with
        | terminalErr e => simp [sendLoop, hsub, hc] at h
        | terminalOk s2 =>
          obtain ⟨j, ss, hq, hsc2⟩ := confirmLoop_terminalOk_inv env sig _ _ _ hc
          obtain ⟨hs2, _⟩ := scanStatuses_terminalOk_inv sig s2 ss hsc2
          have hss : s2 = s := by
            simp only [sendLoop, hsub, hc] at h
            rw [if_neg Bool.false_ne_true] at h
            simpa using h
          have hfin : sig = s := by omega
          subst hfin
          exact ⟨st.submits, hsub⟩
        | fallthrough =>
          simp only [sendLoop, hsub, hc] at h
          rw [if_neg Bool.false_ne_true] at h
          exact ih _ s h

/-- If the outer loop ends in `Ok s`, some status query returned a present
status with no error payload at level `confirmed` or `finalized`. -/
theorem sendLoop_ok_confirmed_inv (env : Env) (tx : Transaction) (sc : Bool) :
    ∀ remaining st s, (sendLoop env tx sc remaining st).1 = Outcome.ok s →
      ∃ j ss, env.get_signature_statuses j = .ok ss ∧
        ∃ t ∈ ss, ∃ u, t = some u ∧ u.err = none ∧
          (u.confirmation_status = some TransactionConfirmationStatus.confirmed ∨
           u.confirmation_status = some TransactionConfirmationStatus.finalized) := by
  intro remaining
  induction remaining with
  | zero => intro st s h; simp [sendLoop] at h
  | succ r ih =>
    intro st s h
    cases hsub : env.send_transaction st.submits with
    | error e =>
      simp only [sendLoop, hsub] at h
      exact ih _ s h
    | ok sig =>
      cases sc with
      | true => simp [sendLoop, hsub] at h
      | false =>
        cases hc : (confirmLoop env sig st.statusQueries CONFIRM_RETRIES).1 with
        | terminalErr e => simp [sendLoop, hsub, hc] at h
        | terminalOk s2 =>
          obtain ⟨j, ss, hq, hsc2⟩ := confirmLoop_terminalOk_inv env sig _ _ _ hc
          obtain ⟨_, hwit⟩ := scanStatuses_terminalOk_inv sig s2 ss hsc2
          exact ⟨j, ss, hq, hwit⟩
        | fallthrough =>
          simp only [sendLoop, hsub, hc] at h
          rw [if_neg Bool.false_ne_true] at h
          exact ih _ s h

/-- From any reachable loop state, if the next submit succeeds and the next
status query reports an on-chain error, the loop returns that error at once:
exactly one more submit, one more status query, and no further calls — no
matter how many attempts were still in the budget. -/
theorem sendLoop_onchain_error_step (env : Env) (tx : Transaction)
    (remaining : Nat) (st : LoopState) (sig : Nat)
    (ss : List (Option TxStatus)) (e : String)
    (hsub : env.send_transaction st.submits = .ok sig)
    (hq : env.get_signature_statuses st.statusQueries = .ok ss)
    (hscan : scanStatuses sig ss = PollStep.terminalErr e) :
    sendLoop env tx false (remaining + 1) st =
      (.err (.custom e),
        ⟨st.submits + 1, st.statusQueries + 1, st.submittedTxs ++ [tx]⟩) := by
  have hc : confirmLoop env sig st.statusQueries CONFIRM_RETRIES =
      (PollStep.terminalErr e, st.statusQueries + 1) := by
    show confirmLoop env sig st.statusQueries (0 + 1) = _
    simp [confirmLoop, hq, hscan]
  simp [sendLoop, hsub, hc]

/-- `send_request` with `skip_confirm` set never returns `Ok`, whatever the
network does. -/
theorem send_request_skip_no_ok (m : Miner) (env : Env) (ixs : List Instruction)
    (cb : ComputeBudget) (d : Nat) (s : Nat) :
    (send_request m env ixs cb true d).outcome ≠ Outcome.ok s := by
  cases hbal : env.get_balance with
  | some b =>
    by_cases hle : b ≤ MIN_SOL_BALANCE_LAMPORTS
    · simp [send_request, hbal, hle]
    · simp only [send_request, hbal]
      rw [if_neg hle]
      cases hbh : env.get_latest_blockhash with
      | none => simp [send_request_rest, hbh]
      | some h =>
        simp only [send_request_rest, hbh]
        exact sendLoop_skip_no_ok env _ _ _ s
  | none =>
    simp only [send_request, hbal]
    cases hbh : env.get_latest_blockhash with
    | none => simp [send_request_rest, hbh]
    | some h =>
      simp only [send_request_rest, hbh]
      exact sendLoop_skip_no_ok env _ _ _ s

/-! ## Concrete miners and environments used by witnesses and counterexamples -/

/-- A miner with a static priority fee and signer equal to fee payer. -/
def miner0 : Miner :=
  { signer := 1
    fee_payer := 1
    dynamic_fee_url := none
    dynamic_fee_strategy := none
    priority_fee := some 3 }

/-- Funded balance, blockhash 42, every submit call fails. -/
def envAllFail : Env :=
  { get_balance := some 10000000
    dynamic_fee := 0
    get_latest_blockhash := some 42
    send_transaction := fun _ => .error "io"
    get_signature_statuses := fun _ => .error "io" }

/-- Balance exactly at the threshold; the rest of the network is healthy. -/
def envLowBal : Env :=
  { get_balance := some 5000000
    dynamic_fee := 0
    get_latest_blockhash := some 42
    send_transaction := fun _ => .ok 9
    get_signature_statuses := fun _ =>
      .ok [some { err := none, confirmation_status := some .finalized }] }

/-- First submit fails, later submits succeed, statuses report finalized. -/
def envC3 : Env :=
  { get_balance := some 10000000
    dynamic_fee := 0
    get_latest_blockhash := some 42
    send_transaction := fun i => if i = 0 then .error "io" else .ok 9
    get_signature_statuses := fun _ =>
      .ok [some { err := none, confirmation_status := some .finalized }] }

/-- Submit succeeds at once and the first status is finalized. -/
def envFinalized : Env :=
  { get_balance := some 10000000
    dynamic_fee := 0
    get_latest_blockhash := some 42
    send_transaction := fun _ => .ok 9
    get_signature_statuses := fun _ =>
      .ok [some { err := none, confirmation_status := some .finalized }] }

/-- Submit succeeds at once and the first status carries an on-chain error. -/
def envOnChainErr : Env :=
  { get_balance := some 10000000
    dynamic_fee := 0
    get_latest_blockhash := some 42
    send_transaction := fun _ => .ok 9
    get_signature_statuses := fun _ =>
      .ok [some { err := some "custom program error", confirmation_status := none }] }

/-- The blockhash fetch fails; everything else is healthy. -/
def envBHFail : Env :=
  { get_balance := some 10000000
    dynamic_fee := 0
    get_latest_blockhash := none
    send_transaction := fun _ => .ok 9
    get_signature_statuses := fun _ =>
      .ok [some { err := none, confirmation_status := some .finalized }] }

/-! ## Claims -/

/-- Claim C1: with `GATEWAY_RETRIES = 150` and a transport whose submit
operation always fails, `send_request` makes exactly 151 submit calls and
zero status queries, then returns the `"Max retries"` (`MaxRetriesExceeded`)
error; the returned counters are exact, so no further network calls occur. -/
theorem claim_C1_max_retries (m : Miner) (env : Env) (ixs : List Instruction)
    (cb : ComputeBudget) (sc : Bool) (d : Nat)
    (hg : balanceGuardTrips env = false)
    (hb : ∃ h, env.get_latest_blockhash = some h)
    (hfail : ∀ i, ∃ e, env.send_transaction i = .error e) :
    (send_request m env ixs cb sc d).submits = 151 ∧
    (send_request m env ixs cb sc d).statusQueries = 0 ∧
    (send_request m env ixs cb sc d).outcome = .err (.custom "Max retries") := by
  obtain ⟨h0, hb⟩ := hb
  rw [send_request_guard_pass m env ixs cb sc d hg]
  simp only [send_request_rest, hb]
  rw [sendLoop_allFail env _ sc hfail (GATEWAY_RETRIES + 1) ⟨0, 0, []⟩]
  simp [GATEWAY_RETRIES]

/-- Witness for C1 at a concrete environment. -/
theorem claim_C1_max_retries_witness :
    (send_request miner0 envAllFail [] ComputeBudget.dynamic false 0).submits = 151 ∧
    (send_request miner0 envAllFail [] ComputeBudget.dynamic false 0).statusQueries = 0 ∧
    (send_request miner0 envAllFail [] ComputeBudget.dynamic false 0).outcome =
      .err (.custom "Max retries") :=
  claim_C1_max_retries miner0 envAllFail [] ComputeBudget.dynamic false 0
    (by decide) ⟨42, rfl⟩ (fun i => ⟨"io", rfl⟩)

/-- Claim C2: whenever the balance query returns a balance at or below the
0.005-SOL threshold (5_000_000 lamports), no submission call, status query,
blockhash fetch or fee-oracle call is made, and the operation fails fatally
with the insufficient-balance abort (the source's `panic!`, which the spec
names `InsufficientBalance`). -/
theorem claim_C2_insufficient_balance (m : Miner) (env : Env)
    (ixs : List Instruction) (cb : ComputeBudget) (sc : Bool) (d : Nat) (b : Nat)
    (hbal : env.get_balance = some b)
    (hle : b ≤ MIN_SOL_BALANCE_LAMPORTS) :
    (send_request m env ixs cb sc d).outcome = .panicked .insufficientBalance ∧
    (send_request m env ixs cb sc d).submits = 0 ∧
    (send_request m env ixs cb sc d).statusQueries = 0 ∧
    (send_request m env ixs cb sc d).blockhashFetches = 0 ∧
    (send_request m env ixs cb sc d).feeOracleCalls = 0 := by
  simp [send_request, hbal, hle]

/-- Witness for C2 at a concrete environment with balance exactly at the
threshold. -/
theorem claim_C2_insufficient_balance_witness :
    (send_request miner0 envLowBal [] ComputeBudget.dynamic false 0).outcome =
      .panicked .insufficientBalance ∧
    (send_request miner0 envLowBal [] ComputeBudget.dynamic false 0).submits = 0 ∧
    (send_request miner0 envLowBal [] ComputeBudget.dynamic false 0).statusQueries = 0 ∧
    (send_request miner0 envLowBal [] ComputeBudget.dynamic false 0).blockhashFetches = 0 ∧
    (send_request miner0 envLowBal [] ComputeBudget.dynamic false 0).feeOracleCalls = 0 :=
  claim_C2_insufficient_balance miner0 envLowBal [] ComputeBudget.dynamic false 0
    5000000 rfl (by decide)

/-- Every transaction handed to the transport is the one transaction
assembled before the loop from the single blockhash fetch. -/
theorem send_request_submitted_inv (m : Miner) (env : Env)
    (ixs : List Instruction) (cb : ComputeBudget) (sc : Bool) (d : Nat)
    (t : Transaction)
    (ht : t ∈ (send_request m env ixs cb sc d).submittedTxs) :
    ∃ h0, env.get_latest_blockhash = some h0 ∧
      t = assemble_tx m (build_final_ixs m env cb ixs) h0 := by
  have main : ∀ henv : Env, henv = env →
      t ∈ (send_request_rest m env ixs cb sc).submittedTxs →
      ∃ h0, env.get_latest_blockhash = some h0 ∧
        t = assemble_tx m (build_final_ixs m env cb ixs) h0 := by
    intro henv _ ht2
    cases hbh : env.get_latest_blockhash with
    | none => simp [send_request_rest, hbh] at ht2
    | some h0 =>
      simp only [send_request_rest, hbh] at ht2
      obtain ⟨k, hk⟩ := sendLoop_submitted_shape env
        (assemble_tx m (build_final_ixs m env cb ixs) h0) sc
        (GATEWAY_RETRIES + 1) ⟨0, 0, []⟩
      rw [hk] at ht2
      simp only [List.nil_append] at ht2
      exact ⟨h0, rfl, List.eq_of_mem_replicate ht2⟩
  cases hbal : env.get_balance with
  | some b =>
    by_cases hle : b ≤ MIN_SOL_BALANCE_LAMPORTS
    · simp [send_request, hbal, hle] at ht
    · simp only [send_request, hbal] at ht
      rw [if_neg hle] at ht
      exact main env rfl ht
  | none =>
    simp only [send_request, hbal] at ht
    exact main env rfl ht

/-- Claim C3 counterexample: with a transport that fails on the first
attempt and accepts the second, the whole execution makes exactly one
blockhash fetch, and the second (re)submission carries the very same
transaction — with the blockhash (42) fetched before the first attempt —
rather than a freshly fetched reference. -/
theorem claim_C3_counterexample :
    (send_request miner0 envC3 [] (ComputeBudget.fixed 5) false 0).submits = 2 ∧
    (send_request miner0 envC3 [] (ComputeBudget.fixed 5) false 0).blockhashFetches = 1 ∧
    (send_request miner0 envC3 [] (ComputeBudget.fixed 5) false 0).submittedTxs =
      [assemble_tx miner0 (build_final_ixs miner0 envC3 (ComputeBudget.fixed 5) []) 42,
       assemble_tx miner0 (build_final_ixs miner0 envC3 (ComputeBudget.fixed 5) []) 42] :=
  ⟨rfl, rfl, rfl⟩

/-- Claim C3 (amended): after a failed or inconclusive attempt the outer
loop resubmits the same signed transaction, reusing the blockhash fetched
once before the first attempt; no fresh blockhash is fetched for
resubmissions. -/
theorem claim_C3_amended_same_tx (m : Miner) (env : Env)
    (ixs : List Instruction) (cb : ComputeBudget) (sc : Bool) (d h0 : Nat)
    (hg : balanceGuardTrips env = false)
    (hb : env.get_latest_blockhash = some h0) :
    (send_request m env ixs cb sc d).blockhashFetches = 1 ∧
    ∀ t ∈ (send_request m env ixs cb sc d).submittedTxs,
      t = assemble_tx m (build_final_ixs m env cb ixs) h0 := by
  constructor
  · rw [send_request_guard_pass m env ixs cb sc d hg]
    cases hbh : env.get_latest_blockhash with
    | none => simp [send_request_rest, hbh]
    | some h1 => simp [send_request_rest, hbh]
  · intro t ht
    obtain ⟨h1, hbh1, heq⟩ := send_request_submitted_inv m env ixs cb sc d t ht
    rw [hb] at hbh1
    cases hbh1
    exact heq

/-- Witness for the amended C3 at a concrete environment where the first
attempt fails and the second succeeds. -/
theorem claim_C3_amended_same_tx_witness :
    (send_request miner0 envC3 [] (ComputeBudget.fixed 5) false 0).blockhashFetches = 1 ∧
    ∀ t ∈ (send_request miner0 envC3 [] (ComputeBudget.fixed 5) false 0).submittedTxs,
      t = assemble_tx miner0 (build_final_ixs miner0 envC3 (ComputeBudget.fixed 5) []) 42 :=
  claim_C3_amended_same_tx miner0 envC3 [] (ComputeBudget.fixed 5) false 0 42
    (by decide) rfl

/-- Claim C4: with `skip_confirm = true` the function can never return a
success, whatever the network does; and when the transport accepts on the
first attempt it makes exactly one submit call, zero status queries, and
returns the skip-confirmation sentinel error. -/
theorem claim_C4_skip_confirm (m : Miner) (env : Env) (ixs : List Instruction)
    (cb : ComputeBudget) (d sig : Nat)
    (hg : balanceGuardTrips env = false)
    (hb : ∃ h, env.get_latest_blockhash = some h)
    (hsub : env.send_transaction 0 = .ok sig) :
    (∀ m2 env2 ixs2 cb2 d2 s,
      (send_request m2 env2 ixs2 cb2 true d2).outcome ≠ Outcome.ok s) ∧
    (send_request m env ixs cb true d).outcome =
      .err (.custom "难度值小于20不提交!!!") ∧
    (send_request m env ixs cb true d).submits = 1 ∧
    (send_request m env ixs cb true d).statusQueries = 0 := by
  obtain ⟨h0, hb⟩ := hb
  refine ⟨fun m2 env2 ixs2 cb2 d2 s => send_request_skip_no_ok m2 env2 ixs2 cb2 d2 s, ?_⟩
  rw [send_request_guard_pass m env ixs cb true d hg]
  simp only [send_request_rest, hb]
  have hloop : sendLoop env (assemble_tx m (build_final_ixs m env cb ixs) h0) true
      (GATEWAY_RETRIES + 1) ⟨0, 0, []⟩ =
      (.err (.custom "难度值小于20不提交!!!"),
        ⟨1, 0, [assemble_tx m (build_final_ixs m env cb ixs) h0]⟩) := by
    simp [sendLoop, hsub]
  rw [hloop]
  exact ⟨rfl, rfl, rfl⟩

/-- Witness for C4 at a concrete environment whose transport accepts at
once. -/
theorem claim_C4_skip_confirm_witness :
    (∀ m2 env2 ixs2 cb2 d2 s,
      (send_request m2 env2 ixs2 cb2 true d2).outcome ≠ Outcome.ok s) ∧
    (send_request miner0 envFinalized [] (ComputeBudget.fixed 7) true 0).outcome =
      .err (.custom "难度值小于20不提交!!!") ∧
    (send_request miner0 envFinalized [] (ComputeBudget.fixed 7) true 0).submits = 1 ∧
    (send_request miner0 envFinalized [] (ComputeBudget.fixed 7) true 0).statusQueries = 0 :=
  claim_C4_skip_confirm miner0 envFinalized [] (ComputeBudget.fixed 7) 0 9
    (by decide) ⟨42, rfl⟩ rfl

/-- Claim C5: when a status query returns a status carrying an on-chain
error payload, the operation terminates at once with a terminal error
carrying that payload — one submit and one status query on that attempt and
nothing after, regardless of the remaining attempt budget (the last
conjunct quantifies over any reachable loop state and any remaining
budget). -/
theorem claim_C5_onchain_error (m : Miner) (env : Env) (ixs : List Instruction)
    (cb : ComputeBudget) (d h0 sig : Nat) (ss : List (Option TxStatus)) (e : String)
    (hg : balanceGuardTrips env = false)
    (hb : env.get_latest_blockhash = some h0)
    (hsub : env.send_transaction 0 = .ok sig)
    (hq : env.get_signature_statuses 0 = .ok ss)
    (hscan : scanStatuses sig ss = PollStep.terminalErr e) :
    (send_request m env ixs cb false d).outcome = .err (.custom e) ∧
    (send_request m env ixs cb false d).submits = 1 ∧
    (send_request m env ixs cb false d).statusQueries = 1 ∧
    (∀ env2 tx2 st2 remaining sig2 ss2 e2,
      env2.send_transaction st2.submits = Except.ok sig2 →
      env2.get_signature_statuses st2.statusQueries = Except.ok ss2 →
      scanStatuses sig2 ss2 = PollStep.terminalErr e2 →
      sendLoop env2 tx2 false (remaining + 1) st2 =
        (.err (.custom e2),
          ⟨st2.submits + 1, st2.statusQueries + 1, st2.submittedTxs ++ [tx2]⟩)) := by
  have hstep := sendLoop_onchain_error_step env
    (assemble_tx m (build_final_ixs m env cb ixs) h0) GATEWAY_RETRIES
    ⟨0, 0, []⟩ sig ss e hsub hq hscan
  rw [send_request_guard_pass m env ixs cb false d hg]
  simp only [send_request_rest, hb]
  rw [hstep]
  exact ⟨rfl, rfl, rfl,
    fun env2 tx2 st2 remaining sig2 ss2 e2 h1 h2 h3 =>
      sendLoop_onchain_error_step env2 tx2 remaining st2 sig2 ss2 e2 h1 h2 h3⟩

/-- Witness for C5 at a concrete environment whose first status carries an
on-chain error payload. -/
theorem claim_C5_onchain_error_witness :
    (send_request miner0 envOnChainErr [] (ComputeBudget.fixed 7) false 0).outcome =
      .err (.custom "custom program error") ∧
    (send_request miner0 envOnChainErr [] (ComputeBudget.fixed 7) false 0).submits = 1 ∧
    (send_request miner0 envOnChainErr [] (ComputeBudget.fixed 7) false 0).statusQueries = 1 ∧
    (∀ env2 tx2 st2 remaining sig2 ss2 e2,
      env2.send_transaction st2.submits = Except.ok sig2 →
      env2.get_signature_statuses st2.statusQueries = Except.ok ss2 →
      scanStatuses sig2 ss2 = PollStep.terminalErr e2 →
      sendLoop env2 tx2 false (remaining + 1) st2 =
        (.err (.custom e2),
          ⟨st2.submits + 1, st2.statusQueries + 1, st2.submittedTxs ++ [tx2]⟩)) :=
  claim_C5_onchain_error miner0 envOnChainErr [] (ComputeBudget.fixed 7) 0 42 9
    [some { err := some "custom program error", confirmation_status := none }]
    "custom program error" (by decide) rfl rfl rfl rfl

/-- A successful result of `send_request` can only arise from a status query
that returned a present, error-free status at level `confirmed` or
`finalized`; the returned identifier is one a submit call produced. -/
theorem send_request_ok_inv (m : Miner) (env : Env) (ixs : List Instruction)
    (cb : ComputeBudget) (sc : Bool) (d : Nat) (s : Nat)
    (hok : (send_request m env ixs cb sc d).outcome = Outcome.ok s) :
    (∃ i, env.send_transaction i = .ok s) ∧
    ∃ j ss, env.get_signature_statuses j = .ok ss ∧
      ∃ t ∈ ss, ∃ u, t = some u ∧ u.err = none ∧
        (u.confirmation_status = some TransactionConfirmationStatus.confirmed ∨
         u.confirmation_status = some TransactionConfirmationStatus.finalized) := by
  have main : (send_request_rest m env ixs cb sc).outcome = Outcome.ok s →
      (∃ i, env.send_transaction i = .ok s) ∧
      ∃ j ss, env.get_signature_statuses j = .ok ss ∧
        ∃ t ∈ ss, ∃ u, t = some u ∧ u.err = none ∧
          (u.confirmation_status = some TransactionConfirmationStatus.confirmed ∨
           u.confirmation_status = some TransactionConfirmationStatus.finalized) := by
    intro hok2
    cases hbh : env.get_latest_blockhash with
    | none => simp [send_request_rest, hbh] at hok2
    | some h0 =>
      simp only [send_request_rest, hbh] at hok2
      exact ⟨sendLoop_ok_inv env _ sc _ _ s hok2,
        sendLoop_ok_confirmed_inv env _ sc _ _ s hok2⟩
  cases hbal : env.get_balance with
  | some b =>
    by_cases hle : b ≤ MIN_SOL_BALANCE_LAMPORTS
    · simp [send_request, hbal, hle] at hok
    · simp only [send_request, hbal] at hok
      rw [if_neg hle] at hok
      exact main hok
  | none =>
    simp only [send_request, hbal] at hok
    exact main hok

/-- Claim C6: a status list whose present entries all lack an error payload
and are not `confirmed`/`finalized` (in particular all `processed`) makes
the confirmation scan fall through, so such a response never makes
`send_request` return; and whenever `send_request` returns success, some
status query reported a present, error-free status at `confirmed` or
`finalized`, and the returned identifier came from a submit call. -/
theorem claim_C6_confirmation_levels :
    (∀ sig ss,
      (∀ t ∈ ss, ∀ u, t = some u → u.err = none ∧
        u.confirmation_status ≠ some TransactionConfirmationStatus.confirmed ∧
        u.confirmation_status ≠ some TransactionConfirmationStatus.finalized) →
      scanStatuses sig ss = PollStep.fallthrough) ∧
    (∀ m env ixs cb sc d s,
      (send_request m env ixs cb sc d).outcome = Outcome.ok s →
      (∃ i, env.send_transaction i = .ok s) ∧
      ∃ j ss, env.get_signature_statuses j = .ok ss ∧
        ∃ t ∈ ss, ∃ u, t = some u ∧ u.err = none ∧
          (u.confirmation_status = some TransactionConfirmationStatus.confirmed ∨
           u.confirmation_status = some TransactionConfirmationStatus.finalized)) :=
  ⟨scanStatuses_fallthrough_of_nonterminal,
   fun m env ixs cb sc d s hok => send_request_ok_inv m env ixs cb sc d s hok⟩

/-- Witness for C6: a `processed` status falls through, and a concrete
finalized run satisfies the success inversion. -/
theorem claim_C6_confirmation_levels_witness :
    scanStatuses 9
      [some { err := none,
              confirmation_status := some TransactionConfirmationStatus.processed }] =
      PollStep.fallthrough ∧
    ((∃ i, envFinalized.send_transaction i = .ok 9) ∧
     ∃ j ss, envFinalized.get_signature_statuses j = .ok ss ∧
       ∃ t ∈ ss, ∃ u, t = some u ∧ u.err = none ∧
         (u.confirmation_status = some TransactionConfirmationStatus.confirmed ∨
          u.confirmation_status = some TransactionConfirmationStatus.finalized)) :=
  ⟨claim_C6_confirmation_levels.1 9 _
    (by
      intro t ht u hu
      simp only [List.mem_singleton] at ht
      subst ht
      injection hu with hu2
      subst hu2
      exact ⟨rfl, by decide, by decide⟩),
   claim_C6_confirmation_levels.2 miner0 envFinalized [] (ComputeBudget.fixed 7)
     false 0 9 rfl⟩

/-- Claim C7 counterexample: when the blockhash fetch fails, `send_request`
does not produce an error result at all — the `.unwrap()` aborts the
process (a panic), which is not a returned `Err`. -/
theorem claim_C7_counterexample :
    (send_request miner0 envBHFail [] ComputeBudget.dynamic false 0).outcome =
      Outcome.panicked PanicReason.blockhashUnwrap ∧
    Outcome.isErrResult
      (send_request miner0 envBHFail [] ComputeBudget.dynamic false 0).outcome = false :=
  ⟨rfl, rfl⟩

/-- Claim C7 (amended): if the fetch of the latest blockhash fails, the
operation aborts at once through the `.unwrap()` panic — there is no local
retry of the fetch and no submission or status query is made — but the
failure surfaces as a process abort, not as a returned error result. -/
theorem claim_C7_amended_unwrap_panic (m : Miner) (env : Env)
    (ixs : List Instruction) (cb : ComputeBudget) (sc : Bool) (d : Nat)
    (hg : balanceGuardTrips env = false)
    (hb : env.get_latest_blockhash = none) :
    (send_request m env ixs cb sc d).outcome =
      Outcome.panicked PanicReason.blockhashUnwrap ∧
    (send_request m env ixs cb sc d).submits = 0 ∧
    (send_request m env ixs cb sc d).statusQueries = 0 ∧
    (send_request m env ixs cb sc d).blockhashFetches = 1 := by
  rw [send_request_guard_pass m env ixs cb sc d hg]
  simp [send_request_rest, hb]

/-- Witness for the amended C7 at a concrete environment. -/
theorem claim_C7_amended_unwrap_panic_witness :
    (send_request miner0 envBHFail [] (ComputeBudget.fixed 8) false 1).outcome =
      Outcome.panicked PanicReason.blockhashUnwrap ∧
    (send_request miner0 envBHFail [] (ComputeBudget.fixed 8) false 1).submits = 0 ∧
    (send_request miner0 envBHFail [] (ComputeBudget.fixed 8) false 1).statusQueries = 0 ∧
    (send_request miner0 envBHFail [] (ComputeBudget.fixed 8) false 1).blockhashFetches = 1 :=
  claim_C7_amended_unwrap_panic miner0 envBHFail [] (ComputeBudget.fixed 8) false 1
    (by decide) rfl

/-- Claim C8: the assembled instruction list is exactly the compute-unit
limit instruction, then the compute-unit price instruction, then the
caller's instructions in their original order, with nothing else — and
every transaction handed to the transport carries exactly that list. -/
theorem claim_C8_instruction_order (m : Miner) (env : Env)
    (ixs : List Instruction) (cb : ComputeBudget) (sc : Bool) (d : Nat) :
    build_final_ixs m env cb ixs =
      computeLimitIx cb ::
        Instruction.setComputeUnitPrice (resolve_priority_fee m env) :: ixs ∧
    ∀ t ∈ (send_request m env ixs cb sc d).submittedTxs,
      t.instructions =
        computeLimitIx cb ::
          Instruction.setComputeUnitPrice (resolve_priority_fee m env) :: ixs := by
  have hbuild : build_final_ixs m env cb ixs =
      computeLimitIx cb ::
        Instruction.setComputeUnitPrice (resolve_priority_fee m env) :: ixs := by
    simp [build_final_ixs]
  refine ⟨hbuild, ?_⟩
  intro t ht
  obtain ⟨h0, _, heq⟩ := send_request_submitted_inv m env ixs cb sc d t ht
  subst heq
  simpa [assemble_tx] using hbuild

/-- Witness for C8 at a concrete environment and instruction list. -/
theorem claim_C8_instruction_order_witness :
    build_final_ixs miner0 envFinalized (ComputeBudget.fixed 7)
        [Instruction.other 4 [1, 2]] =
      computeLimitIx (ComputeBudget.fixed 7) ::
        Instruction.setComputeUnitPrice
          (resolve_priority_fee miner0 envFinalized) ::
        [Instruction.other 4 [1, 2]] ∧
    ∀ t ∈ (send_request miner0 envFinalized [Instruction.other 4 [1, 2]]
        (ComputeBudget.fixed 7) false 0).submittedTxs,
      t.instructions =
        computeLimitIx (ComputeBudget.fixed 7) ::
          Instruction.setComputeUnitPrice
            (resolve_priority_fee miner0 envFinalized) ::
          [Instruction.other 4 [1, 2]] :=
  claim_C8_instruction_order miner0 envFinalized [Instruction.other 4 [1, 2]]
    (ComputeBudget.fixed 7) false 0

/-- Claim C9: the result of `send_request` is independent of `best_diff` —
two calls identical in every input and network response except `best_diff`
return the same full observable result; no branch reads `best_diff`. -/
theorem claim_C9_best_diff_independent (m : Miner) (env : Env)
    (ixs : List Instruction) (cb : ComputeBudget) (sc : Bool) (d1 d2 : Nat) :
    send_request m env ixs cb sc d1 = send_request m env ixs cb sc d2 := rfl

/-- Claim C10: the fee-oracle is invoked at most once per call (and only
before the loop), and every submitted transaction — first attempt and every
resubmission alike — carries the same instruction list, hence the same
compute-unit price resolved once before the loop. -/
theorem claim_C10_fee_resolved_once (m : Miner) (env : Env)
    (ixs : List Instruction) (cb : ComputeBudget) (sc : Bool) (d : Nat) :
    (send_request m env ixs cb sc d).feeOracleCalls ≤ 1 ∧
    ∀ t ∈ (send_request m env ixs cb sc d).submittedTxs,
      t.instructions = build_final_ixs m env cb ixs := by
  constructor
  · have hcnt : feeOracleCallCount m ≤ 1 := by
      cases hurl : m.dynamic_fee_url with
      | some u => simp [feeOracleCallCount, hurl]
      | none => simp [feeOracleCallCount, hurl]
    have hrest : (send_request_rest m env ixs cb sc).feeOracleCalls ≤ 1 := by
      cases hbh : env.get_latest_blockhash with
      | none => simpa [send_request_rest, hbh] using hcnt
      | some h0 => simpa [send_request_rest, hbh] using hcnt
    cases hbal : env.get_balance with
    | some b =>
      by_cases hle : b ≤ MIN_SOL_BALANCE_LAMPORTS
      · simp [send_request, hbal, hle]
      · simp only [send_request, hbal]
        rw [if_neg hle]
        exact hrest
    | none =>
      simp only [send_request, hbal]
      exact hrest
  · intro t ht
    obtain ⟨h0, _, heq⟩ := send_request_submitted_inv m env ixs cb sc d t ht
    subst heq
    simp [assemble_tx]

/-- Witness for C10 at a concrete environment with a permanently failing
transport (151 resubmissions, all with the same instruction list). -/
theorem claim_C10_fee_resolved_once_witness :
    (send_request miner0 envAllFail [Instruction.other 4 [1, 2]]
        ComputeBudget.dynamic false 0).feeOracleCalls ≤ 1 ∧
    ∀ t ∈ (send_request miner0 envAllFail [Instruction.other 4 [1, 2]]
        ComputeBudget.dynamic false 0).submittedTxs,
      t.instructions =
        build_final_ixs miner0 envAllFail ComputeBudget.dynamic
          [Instruction.other 4 [1, 2]] :=
  claim_C10_fee_resolved_once miner0 envAllFail [Instruction.other 4 [1, 2]]
    ComputeBudget.dynamic false 0
